import Mathlib

/-!
Verification of the SlimeVR USB-UDP bridge (`tools/slimevr_bridge.py`).

The development shallowly embeds the bridge's pure core: the RF-Ultra frame
decoder `parse_rf_ultra_packet`, the `SlimeVRProtocol` packet builders with
their shared `packet_id` counter, and the per-reading dispatch
`SlimeVRBridge.handle_tracker_data`.  Bytes are modelled as `Nat` values
below 256, Python's unbounded `int` as `Nat`, and `time.time()` values as
`Rat`.  `struct.pack` calls that can raise (`<Q` on an argument outside
`[0, 2^64)`, `bytearray` item assignment outside `[0, 256)`) are modelled
with `Option`: a `none` result stands for the raised exception.
-/

namespace SlimeVRBridgeModel

/-! ### Outbound packet-type constants (`slimevr_bridge.py` lines 43-60) -/

def PKT_HEARTBEAT : Nat := 0

def PKT_ROTATION : Nat := 1

def PKT_HANDSHAKE : Nat := 3

def PKT_BATTERY : Nat := 12

def PKT_ROTATION_DATA : Nat := 17

/-! ### Byte packing, modelling `struct.pack` / `struct.unpack` -/

/-- Little-endian encoding of `v` on `n` bytes (`struct.pack` core loop). -/
def packLE : Nat → Nat → List Nat
  | 0, _ => []
  | n + 1, v => (v % 256) :: packLE n (v / 256)

/-- `struct.pack('<I', v)`.  Every call site in the source passes a constant
below `2^32`, so the fallible range check is omitted here. -/
def packU32 (v : Nat) : List Nat := packLE 4 v

/-- `struct.pack('<Q', v)`: 8 little-endian bytes, raising `struct.error`
(modelled as `none`) when `v` does not fit in 64 bits. -/
def packU64 (v : Nat) : Option (List Nat) :=
  if v < 2 ^ 64 then some (packLE 8 v) else none

/-- `struct.pack('<f', x)`: the IEEE-754 single-precision bit pattern is not
modelled (floating point); only the 4-byte width of the field is visible to
the development, so the four payload bytes are left as zeros.  No theorem
below depends on the contents of these four bytes. -/
def packF32 (_x : Rat) : List Nat := [0, 0, 0, 0]

/-- `struct.unpack('<H', bytes([lo, hi]))[0]`. -/
def unpackU16 (lo hi : Nat) : Nat := lo + 256 * hi

/-- `struct.unpack('<h', bytes([lo, hi]))[0]`. -/
def unpackI16 (lo hi : Nat) : Int :=
  let u := lo + 256 * hi
  if u ≥ 32768 then (u : Int) - 65536 else (u : Int)

/-! ### Frame decoder (`parse_rf_ultra_packet`, lines 83-135) -/

/-- The 4-bit battery code to percent map, `((aux >> 12) & 0x0F) * 100 // 15`
(line 113): Python `//` on nonnegative ints is `Nat` division. -/
def batteryOfCode (code : Nat) : Nat := code * 100 / 15

/-- Decoded sensor reading: the tagged union returned by
`parse_rf_ultra_packet` (`'rotation'`, `'device_info'`, `'status'`
dictionaries).  Quaternion components are exact rationals `raw / 32768`,
`accelZ` is `raw / 1000`. -/
inductive Reading where
  | rotation (tracker_id : Nat) (quaternion : List Rat) (accel_z : Rat)
      (battery : Nat)
  | deviceInfo (tracker_id : Nat)
  | status (tracker_id : Nat)
  deriving Repr, DecidableEq

/-- The `tracker_id` field present in every reading variant. -/
def Reading.trackerId : Reading → Nat
  | .rotation t _ _ _ => t
  | .deviceInfo t => t
  | .status t => t

/-- The 2-bit kind selector value that produces each reading variant. -/
def Reading.kindCode : Reading → Nat
  | .rotation _ _ _ _ => 0
  | .deviceInfo _ => 1
  | .status _ => 2

/-- `parse_rf_ultra_packet(data)`: returns `none` for frames shorter than 12
bytes and for the reserved kind selector 3; otherwise decodes the frame.
The function is total, matching the fact that the Python body cannot raise
on any `bytes` input. -/
def parse_rf_ultra_packet (data : List Nat) : Option Reading :=
  if data.length < 12 then none
  else
    let header := data.getD 0 0
    let pkt_type := (header >>> 6) &&& 0x03
    let tracker_id := header &&& 0x3F
    if pkt_type = 0 then
      let qw : Rat := (unpackI16 (data.getD 1 0) (data.getD 2 0) : Rat) / 32768
      let qx : Rat := (unpackI16 (data.getD 3 0) (data.getD 4 0) : Rat) / 32768
      let qy : Rat := (unpackI16 (data.getD 5 0) (data.getD 6 0) : Rat) / 32768
      let qz : Rat := (unpackI16 (data.getD 7 0) (data.getD 8 0) : Rat) / 32768
      let aux := unpackU16 (data.getD 9 0) (data.getD 10 0)
      let accel_z_raw : Int :=
        if (aux &&& 0x0FFF) > 2047 then ((aux &&& 0x0FFF : Nat) : Int) - 4096
        else ((aux &&& 0x0FFF : Nat) : Int)
      let accel_z : Rat := (accel_z_raw : Rat) / 1000
      let battery := batteryOfCode ((aux >>> 12) &&& 0x0F)
      some (.rotation tracker_id [qw, qx, qy, qz] accel_z battery)
    else if pkt_type = 1 then some (.deviceInfo tracker_id)
    else if pkt_type = 2 then some (.status tracker_id)
    else none

/-! ### Protocol encoder (`SlimeVRProtocol`, lines 141-238) -/

/-- The mutable state of a `SlimeVRProtocol` instance: the shared sequence
counter `packet_id` (a Python unbounded `int`) and the `mac_base` bytes. -/
structure SlimeVRProtocol where
  packet_id : Nat
  mac_base : List Nat
  deriving Repr, DecidableEq

/-- `SlimeVRProtocol.__init__` (lines 144-146). -/
def initProtocol : SlimeVRProtocol :=
  { packet_id := 0, mac_base := [0x01, 0x02, 0x03, 0x04, 0x05, 0x00] }

/-- `SlimeVRProtocol.build_handshake` (lines 148-184).  The `<Q` pack of
`packet_id` happens before the increment, so a `struct.error` (counter
outside 64 bits) leaves the state unchanged; the `mac[5] = tracker_id`
assignment happens after the increment, so a `ValueError`
(`tracker_id ≥ 256`) still advances the counter. -/
def build_handshake (s : SlimeVRProtocol) (tracker_id : Nat) :
    Option (List Nat) × SlimeVRProtocol :=
  match packU64 s.packet_id with
  | none => (none, s)
  | some seqBytes =>
    let s' := { s with packet_id := s.packet_id + 1 }
    if tracker_id < 256 then
      (some (packU32 PKT_HANDSHAKE ++ seqBytes ++
             packU32 100 ++ packU32 3 ++ packU32 100 ++
             packU32 0 ++ packU32 0 ++ packU32 0 ++
             packU32 1 ++ packU32 0 ++ packU32 0 ++
             packU32 1 ++ s.mac_base.set 5 tracker_id), s')
    else (none, s')

/-- `SlimeVRProtocol.build_rotation` (lines 186-210): type tag, sequence,
sensor id byte, data-type marker `1`, four `<f` floats, accuracy marker
`1`.  `bytearray.append(tracker_id)` raises for `tracker_id ≥ 256`, after
the counter increment. -/
def build_rotation (s : SlimeVRProtocol) (tracker_id : Nat)
    (quat : List Rat) : Option (List Nat) × SlimeVRProtocol :=
  match packU64 s.packet_id with
  | none => (none, s)
  | some seqBytes =>
    let s' := { s with packet_id := s.packet_id + 1 }
    if tracker_id < 256 then
      (some (packU32 PKT_ROTATION_DATA ++ seqBytes ++
             [tracker_id] ++ [1] ++ (quat.map packF32).flatten ++ [1]), s')
    else (none, s')

/-- `SlimeVRProtocol.build_battery` (lines 212-230): type tag, sequence,
estimated voltage float and fractional percentage float.  Note that the
`tracker_id` argument is never placed in the packet bytes. -/
def build_battery (s : SlimeVRProtocol) (_tracker_id : Nat)
    (battery_pct : Nat) : Option (List Nat) × SlimeVRProtocol :=
  match packU64 s.packet_id with
  | none => (none, s)
  | some seqBytes =>
    let s' := { s with packet_id := s.packet_id + 1 }
    let voltage : Rat := 33 / 10 + ((battery_pct : Rat) / 100) * (9 / 10)
    (some (packU32 PKT_BATTERY ++ seqBytes ++
           packF32 voltage ++ packF32 ((battery_pct : Rat) / 100)), s')

/-- `SlimeVRProtocol.build_heartbeat` (lines 232-238): type tag and
sequence number only. -/
def build_heartbeat (s : SlimeVRProtocol) :
    Option (List Nat) × SlimeVRProtocol :=
  match packU64 s.packet_id with
  | none => (none, s)
  | some seqBytes =>
    (some (packU32 PKT_HEARTBEAT ++ seqBytes),
     { s with packet_id := s.packet_id + 1 })

/-! ### Bridge state and per-reading dispatch (`SlimeVRBridge`, lines 244-344) -/

/-- The bridge state consulted by `handle_tracker_data`: the protocol
instance, the `connected_trackers` set (a list with membership queries)
and the `last_battery_time` dict.  The dict is read only through
`.get(tracker_id, 0)`, so it is modelled as a total map defaulting to 0. -/
structure SlimeVRBridge where
  protocol : SlimeVRProtocol
  connected_trackers : List Nat
  last_battery_time : Nat → Rat

/-- `SlimeVRBridge.__init__` (lines 247-254): empty tracker set, empty
battery-time dict, fresh protocol instance. -/
def initBridge : SlimeVRBridge :=
  { protocol := initProtocol, connected_trackers := [],
    last_battery_time := fun _ => 0 }

/-- One datagram passed to `send_to_slimevr`, tagged with the builder call
site in `handle_tracker_data` / `heartbeat_thread` that produced it.  A
battery packet additionally records the `time.time()` value `now` at which
it was emitted (the bytes themselves carry no tracker id and no time). -/
inductive Sent where
  | handshake (tracker_id : Nat) (bytes : List Nat)
  | rotation (tracker_id : Nat) (bytes : List Nat)
  | battery (tracker_id : Nat) (now : Rat) (bytes : List Nat)
  | heartbeat (bytes : List Nat)
  deriving Repr, DecidableEq

/-- `SlimeVRBridge.handle_tracker_data` (lines 314-344) at time `now`
(= `time.time()` at line 337).  Returns the updated bridge state and the
datagrams sent, in order; `none` models an exception escaping the method
(only possible when a builder raises). -/
def handle_tracker_data (br : SlimeVRBridge) (r : Reading) (now : Rat) :
    Option (SlimeVRBridge × List Sent) :=
  let tracker_id := r.trackerId
  let step1 : Option (SlimeVRBridge × List Sent) :=
    if tracker_id ∈ br.connected_trackers then some (br, [])
    else
      match build_handshake br.protocol tracker_id with
      | (none, _) => none
      | (some pkt, p') =>
        some ({ protocol := p',
                connected_trackers := tracker_id :: br.connected_trackers,
                last_battery_time := fun t =>
                  if t = tracker_id then 0 else br.last_battery_time t },
              [Sent.handshake tracker_id pkt])
  match step1 with
  | none => none
  | some (br1, out1) =>
    match r with
    | .rotation _ quat _ battery =>
      match build_rotation br1.protocol tracker_id quat with
      | (none, _) => none
      | (some rpkt, p2) =>
        let br2 := { br1 with protocol := p2 }
        if now - br2.last_battery_time tracker_id > 5 then
          match build_battery br2.protocol tracker_id battery with
          | (none, _) => none
          | (some bpkt, p3) =>
            some ({ br2 with
                    protocol := p3,
                    last_battery_time := fun t =>
                      if t = tracker_id then now
                      else br2.last_battery_time t },
                  out1 ++ [Sent.rotation tracker_id rpkt,
                           Sent.battery tracker_id now bpkt])
        else some (br2, out1 ++ [Sent.rotation tracker_id rpkt])
    | _ => some (br1, out1)

/-- The poll-path trace: `handle_tracker_data` applied to a sequence of
decoded readings with their arrival times (the loop at lines 369-384
feeding line 381).  `none` models a builder exception aborting the run. -/
def runReadings (br : SlimeVRBridge) :
    List (Reading × Rat) → Option (SlimeVRBridge × List Sent)
  | [] => some (br, [])
  | (r, t) :: rest =>
    match handle_tracker_data br r t with
    | none => none
    | some (br', out) =>
      match runReadings br' rest with
      | none => none
      | some (brF, outs) => some (brF, out ++ outs)

/-- Whether a sent datagram concerns the given tracker id (handshake,
rotation or battery for that id; heartbeats concern no tracker). -/
def Sent.aboutTid (tid : Nat) : Sent → Bool
  | .handshake t _ => t = tid
  | .rotation t _ => t = tid
  | .battery t _ _ => t = tid
  | .heartbeat _ => false

/-- Whether a sent datagram is a handshake for the given tracker id. -/
def Sent.isHandshakeFor (tid : Nat) : Sent → Bool
  | .handshake t _ => t = tid
  | _ => false

/-- The emission times of the battery packets for the given tracker id in a
trace, in order. -/
def batteryTimes (tid : Nat) (trace : List Sent) : List Rat :=
  trace.filterMap fun s =>
    match s with
    | .battery t tm _ => if t = tid then some tm else none
    | _ => none

/-! ### CPython-level interleaving of the shared `packet_id` counter

The poll path and `heartbeat_thread` (line 346) call the four builders on
the one `self.protocol` instance with no lock.  Under the CPython GIL each
bytecode is atomic but a thread switch may occur between bytecodes, so one
builder call decomposes into three relevantly-atomic steps: the read of
`self.packet_id` inside `struct.pack('<Q', self.packet_id)` (lines 156,
194, 220, 236), then the load and the store halves of
`self.packet_id += 1` (lines 157, 195, 221, 237). -/

/-- The local state of one in-flight builder call: `pc = 0` before the
stamp read, `1` before the `+= 1` load, `2` before the `+= 1` store, `3`
done.  `stamped` is the sequence number placed in the packet bytes,
`loaded` the value read by `+= 1`. -/
structure EncodeCall where
  pc : Nat
  stamped : Option Nat
  loaded : Option Nat
  deriving Repr, DecidableEq

/-- A builder call that has not started yet. -/
def initCall : EncodeCall := { pc := 0, stamped := none, loaded := none }

/-- One atomic step of a builder call against the shared counter value
`c`: returns the new shared counter and the new call state. -/
def microStep (c : Nat) (t : EncodeCall) : Nat × EncodeCall :=
  if t.pc = 0 then (c, { t with pc := 1, stamped := some c })
  else if t.pc = 1 then (c, { t with pc := 2, loaded := some c })
  else if t.pc = 2 then
    match t.loaded with
    | some v => (v + 1, { t with pc := 3 })
    | none => (c, t)
  else (c, t)

/-- Interleaved execution of two concurrent builder calls on the shared
counter: `true` schedules one atomic step of the first call (say the poll
path), `false` one step of the second (the heartbeat path). -/
def runSched : List Bool → Nat → EncodeCall → EncodeCall →
    Nat × EncodeCall × EncodeCall
  | [], c, t1, t2 => (c, t1, t2)
  | b :: rest, c, t1, t2 =>
    if b then
      let p := microStep c t1
      runSched rest p.1 p.2 t2
    else
      let p := microStep c t2
      runSched rest p.1 t1 p.2

/-! ### Connect-failure control flow (`run`, lines 353-392; `main`, 398-448) -/

/-- What `SlimeVRBridge.run` did up to and including the connect step. -/
structure RunOutcome where
  connect_attempts : Nat
  error_logged : Bool
  entered_running : Bool
  deriving Repr, DecidableEq

/-- `SlimeVRBridge.run` (lines 353-357) at the connect step:
`self.connect()` is called exactly once; on failure the error is logged
(`log_error` at line 356) and the method returns without retrying, never
entering the running loop. -/
def bridge_run (connect_ok : Bool) : RunOutcome :=
  if connect_ok then
    { connect_attempts := 1, error_logged := false, entered_running := true }
  else
    { connect_attempts := 1, error_logged := true, entered_running := false }

/-- The process exit status produced by `main` (lines 398-448) as a
function of the two fallible steps: a `find_device` failure exits via
`sys.exit(1)` (line 446); otherwise `bridge.run()` is called and `main`
returns normally, so the process exits with status 0 whatever `run` did —
in particular also when the device open inside `run` failed. -/
def main_exit_code (find_ok connect_ok : Bool) : Nat :=
  if find_ok then
    let _ := bridge_run connect_ok
    0
  else 1

/-! ## Supporting lemmas -/

/-- `packLE` always produces exactly the requested number of bytes. -/
lemma packLE_length (n : Nat) : ∀ v, (packLE n v).length = n := by
  induction n with
  | zero => intro v; rfl
  | succ k ih => intro v; simp [packLE, ih]

/-- Any successfully decoded reading carries the kind selector and tracker
id extracted from byte 0 of the frame. -/
lemma parse_kindCode (data : List Nat) (r : Reading)
    (hp : parse_rf_ultra_packet data = some r) :
    r.kindCode = (data.getD 0 0 >>> 6) &&& 3 ∧
    r.trackerId = data.getD 0 0 &&& 63 := by
  by_cases hlen : data.length < 12
  · simp [parse_rf_ultra_packet, hlen] at hp
  · simp only [parse_rf_ultra_packet, if_neg hlen] at hp
    by_cases h0 : (data.getD 0 0 >>> 6) &&& 3 = 0
    · rw [if_pos h0] at hp
      injection hp with h
      subst h
      exact ⟨h0.symm, rfl⟩
    · rw [if_neg h0] at hp
      by_cases h1 : (data.getD 0 0 >>> 6) &&& 3 = 1
      · rw [if_pos h1] at hp
        injection hp with h
        subst h
        exact ⟨h1.symm, rfl⟩
      · rw [if_neg h1] at hp
        by_cases h2 : (data.getD 0 0 >>> 6) &&& 3 = 2
        · rw [if_pos h2] at hp
          injection hp with h
          subst h
          exact ⟨h2.symm, rfl⟩
        · rw [if_neg h2] at hp
          cases hp

set_option maxRecDepth 4096 in
/-- Recomposing the low six bits under a zero kind selector reproduces any
byte value. -/
lemma header_byte_recompose :
    ∀ b0, b0 < 256 → (b0 >>> 6) &&& 3 = 0 → (0 <<< 6) ||| (b0 &&& 63) = b0 := by
  decide

/-- Shape of one `handle_tracker_data` step on a DeviceInfo or Status
reading: a single handshake when the id is new, nothing when it is
known. -/
lemma handle_info_shape (br : SlimeVRBridge) (tid : Nat) (now : Rat)
    (br' : SlimeVRBridge) (out : List Sent) (r : Reading)
    (hr : r = Reading.deviceInfo tid ∨ r = Reading.status tid)
    (h : handle_tracker_data br r now = some (br', out)) :
    (tid ∈ br.connected_trackers ∧ out = [] ∧ br' = br) ∨
    (tid ∉ br.connected_trackers ∧ (∃ hb, out = [Sent.handshake tid hb]) ∧
      br'.connected_trackers = tid :: br.connected_trackers ∧
      br'.last_battery_time = fun t =>
        if t = tid then 0 else br.last_battery_time t) := by
  by_cases hmem : tid ∈ br.connected_trackers
  · left
    rcases hr with hr | hr <;> subst hr <;>
      simp only [handle_tracker_data, Reading.trackerId, if_pos hmem] at h <;>
      · injection h with h1
        injection h1 with hbr hout
        exact ⟨hmem, hout.symm, hbr.symm⟩
  · right
    rcases hr with hr | hr <;> subst hr <;>
      simp only [handle_tracker_data, Reading.trackerId, if_neg hmem] at h <;>
      · rcases hb : build_handshake br.protocol tid with ⟨fst, p'⟩
        cases fst with
        | none => rw [hb] at h; cases h
        | some pkt =>
          rw [hb] at h
          simp only at h
          injection h with h1
          injection h1 with hbr hout
          subst hbr
          exact ⟨hmem, ⟨pkt, hout.symm⟩, rfl, rfl⟩

/-- Shape of one `handle_tracker_data` step on an Orientation reading:
an optional leading handshake (new id), then the rotation packet, then an
optional battery packet (interval guard), with the corresponding updates
of the connected set and of the per-tracker battery timestamp. -/
lemma handle_rotation_shape (br : SlimeVRBridge) (tid : Nat) (q : List Rat)
    (a : Rat) (bat : Nat) (now : Rat) (br' : SlimeVRBridge)
    (out : List Sent)
    (h : handle_tracker_data br (Reading.rotation tid q a bat) now =
      some (br', out)) :
    br'.connected_trackers =
      (if tid ∈ br.connected_trackers then br.connected_trackers
       else tid :: br.connected_trackers) ∧
    ∃ rb,
      (tid ∈ br.connected_trackers ∧ ¬ now - br.last_battery_time tid > 5 ∧
        out = [Sent.rotation tid rb] ∧
        br'.last_battery_time = br.last_battery_time) ∨
      (tid ∈ br.connected_trackers ∧ now - br.last_battery_time tid > 5 ∧
        (∃ bb, out = [Sent.rotation tid rb, Sent.battery tid now bb]) ∧
        br'.last_battery_time = fun t =>
          if t = tid then now else br.last_battery_time t) ∨
      (tid ∉ br.connected_trackers ∧ ¬ now - 0 > 5 ∧
        (∃ hb, out = [Sent.handshake tid hb, Sent.rotation tid rb]) ∧
        br'.last_battery_time = fun t =>
          if t = tid then 0 else br.last_battery_time t) ∨
      (tid ∉ br.connected_trackers ∧ now - 0 > 5 ∧
        (∃ hb bb, out = [Sent.handshake tid hb, Sent.rotation tid rb,
          Sent.battery tid now bb]) ∧
        br'.last_battery_time = fun t =>
          if t = tid then now else br.last_battery_time t) := by
  by_cases hmem : tid ∈ br.connected_trackers
  · simp only [handle_tracker_data, Reading.trackerId, if_pos hmem] at h
    rcases hrot : build_rotation br.protocol tid q with ⟨fstr, p2⟩
    cases fstr with
    | none => rw [hrot] at h; cases h
    | some rpkt =>
      rw [hrot] at h
      simp only at h
      by_cases hg : now - br.last_battery_time tid > 5
      · rw [if_pos hg] at h
        rcases hbat : build_battery p2 tid bat with ⟨fstb, p3⟩
        cases fstb with
        | none => rw [hbat] at h; cases h
        | some bpkt =>
          rw [hbat] at h
          simp only at h
          injection h with h1
          injection h1 with hbr hout
          subst hbr
          exact ⟨by rw [if_pos hmem],
            rpkt, Or.inr (Or.inl ⟨hmem, hg, ⟨bpkt, hout.symm⟩, rfl⟩)⟩
      · rw [if_neg hg] at h
        injection h with h1
        injection h1 with hbr hout
        subst hbr
        exact ⟨by rw [if_pos hmem],
          rpkt, Or.inl ⟨hmem, hg, hout.symm, rfl⟩⟩
  · simp only [handle_tracker_data, Reading.trackerId, if_neg hmem] at h
    rcases hhs : build_handshake br.protocol tid with ⟨fsth, p1⟩
    cases fsth with
    | none => rw [hhs] at h; cases h
    | some hpkt =>
      rw [hhs] at h
      simp only at h
      rcases hrot : build_rotation p1 tid q with ⟨fstr, p2⟩
      cases fstr with
      | none => rw [hrot] at h; cases h
      | some rpkt =>
        rw [hrot] at h
        simp only at h
        simp only [ite_true] at h
        by_cases hg : now - (0 : Rat) > 5
        · rw [if_pos hg] at h
          rcases hbat : build_battery p2 tid bat with ⟨fstb, p3⟩
          cases fstb with
          | none => rw [hbat] at h; cases h
          | some bpkt =>
            rw [hbat] at h
            simp only at h
            injection h with h1
            injection h1 with hbr hout
            subst hbr
            refine ⟨by rw [if_neg hmem], rpkt,
              Or.inr (Or.inr (Or.inr ⟨hmem, hg, ⟨hpkt, bpkt, hout.symm⟩, ?_⟩))⟩
            funext t
            by_cases ht : t = tid <;> simp [ht]
        · rw [if_neg hg] at h
          injection h with h1
          injection h1 with hbr hout
          subst hbr
          exact ⟨by rw [if_neg hmem], rpkt,
            Or.inr (Or.inr (Or.inl ⟨hmem, hg, ⟨hpkt, hout.symm⟩, rfl⟩))⟩

/-- Trace bookkeeping of one `handle_tracker_data` step, for an arbitrary
observer id `tid`: how the connected set evolves, that the output only
concerns the reading's own id, and that a handshake appears exactly when
the reading's id is new — in which case it leads the output. -/
lemma handle_step_trace (br : SlimeVRBridge) (r : Reading) (now : Rat)
    (br1 : SlimeVRBridge) (out : List Sent)
    (h : handle_tracker_data br r now = some (br1, out)) (tid : Nat) :
    (tid ∈ br1.connected_trackers ↔
      tid ∈ br.connected_trackers ∨ tid = r.trackerId) ∧
    (tid ≠ r.trackerId → out.filter (Sent.aboutTid tid) = []) ∧
    (out.countP (Sent.isHandshakeFor tid) =
      if tid = r.trackerId ∧ tid ∉ br.connected_trackers then 1 else 0) ∧
    (tid = r.trackerId → tid ∉ br.connected_trackers →
      ∃ hb rest, out = Sent.handshake tid hb :: rest ∧
        rest.countP (Sent.isHandshakeFor tid) = 0) := by
  cases r with
  | rotation tid0 q a bat =>
    simp only [Reading.trackerId]
    obtain ⟨hconn, rb, hcase⟩ := handle_rotation_shape br tid0 q a bat now br1 out h
    by_cases hmem0 : tid0 ∈ br.connected_trackers
    · rw [if_pos hmem0] at hconn
      have hout : out = [Sent.rotation tid0 rb] ∨
          ∃ bb, out = [Sent.rotation tid0 rb, Sent.battery tid0 now bb] := by
        rcases hcase with ⟨-, -, ho, -⟩ | ⟨-, -, ho, -⟩ | ⟨habs, -⟩ | ⟨habs, -⟩
        · exact Or.inl ho
        · exact Or.inr ho
        · exact absurd hmem0 habs
        · exact absurd hmem0 habs
      refine ⟨?_, ?_, ?_, ?_⟩
      · rw [hconn]
        exact ⟨Or.inl, fun hor => hor.elim id fun he => he ▸ hmem0⟩
      · intro hne
        rcases hout with ho | ⟨bb, ho⟩ <;> subst ho <;>
          simp [Sent.aboutTid, Ne.symm hne]
      · rw [if_neg (fun hc => hc.2 (hc.1 ▸ hmem0))]
        rcases hout with ho | ⟨bb, ho⟩ <;> subst ho <;>
          simp [Sent.isHandshakeFor]
      · intro he hn
        exact absurd (he ▸ hmem0) hn
    · rw [if_neg hmem0] at hconn
      have hout : (∃ hb, out = [Sent.handshake tid0 hb, Sent.rotation tid0 rb]) ∨
          ∃ hb bb, out = [Sent.handshake tid0 hb, Sent.rotation tid0 rb,
            Sent.battery tid0 now bb] := by
        rcases hcase with ⟨habs, -⟩ | ⟨habs, -⟩ | ⟨-, -, ho, -⟩ | ⟨-, -, ho, -⟩
        · exact absurd habs hmem0
        · exact absurd habs hmem0
        · exact Or.inl ho
        · exact Or.inr ho
      refine ⟨?_, ?_, ?_, ?_⟩
      · rw [hconn]
        simp [List.mem_cons, eq_comm, or_comm]
      · intro hne
        rcases hout with ⟨hb, ho⟩ | ⟨hb, bb, ho⟩ <;> subst ho <;>
          simp [Sent.aboutTid, Ne.symm hne]
      · by_cases ht : tid = tid0
        · subst ht
          rw [if_pos ⟨rfl, hmem0⟩]
          rcases hout with ⟨hb, ho⟩ | ⟨hb, bb, ho⟩ <;> subst ho <;>
            simp [Sent.isHandshakeFor]
        · rw [if_neg (fun hc => ht hc.1)]
          rcases hout with ⟨hb, ho⟩ | ⟨hb, bb, ho⟩ <;> subst ho <;>
            simp [Sent.isHandshakeFor, Ne.symm ht]
      · intro he _hn
        subst he
        rcases hout with ⟨hb, ho⟩ | ⟨hb, bb, ho⟩
        · exact ⟨hb, _, ho, by simp [Sent.isHandshakeFor]⟩
        · exact ⟨hb, _, ho, by simp [Sent.isHandshakeFor]⟩
  | deviceInfo tid0 =>
    simp only [Reading.trackerId]
    rcases handle_info_shape br tid0 now br1 out _ (Or.inl rfl) h with
      ⟨hmem0, hout, hbr⟩ | ⟨hmem0, ⟨hb, hout⟩, hconn, -⟩
    · subst hout
      subst hbr
      refine ⟨⟨Or.inl, fun hor => hor.elim id fun he => he ▸ hmem0⟩,
        fun _ => rfl, ?_, fun he hn => absurd (he ▸ hmem0) hn⟩
      rw [if_neg (fun hc => hc.2 (hc.1 ▸ hmem0))]
      rfl
    · subst hout
      refine ⟨?_, ?_, ?_, ?_⟩
      · rw [hconn]
        simp [List.mem_cons, eq_comm, or_comm]
      · intro hne
        simp [Sent.aboutTid, Ne.symm hne]
      · by_cases ht : tid = tid0
        · subst ht
          rw [if_pos ⟨rfl, hmem0⟩]
          simp [Sent.isHandshakeFor]
        · rw [if_neg (fun hc => ht hc.1)]
          simp [Sent.isHandshakeFor, Ne.symm ht]
      · intro he _hn
        subst he
        exact ⟨hb, [], rfl, rfl⟩
  | status tid0 =>
    simp only [Reading.trackerId]
    rcases handle_info_shape br tid0 now br1 out _ (Or.inr rfl) h with
      ⟨hmem0, hout, hbr⟩ | ⟨hmem0, ⟨hb, hout⟩, hconn, -⟩
    · subst hout
      subst hbr
      refine ⟨⟨Or.inl, fun hor => hor.elim id fun he => he ▸ hmem0⟩,
        fun _ => rfl, ?_, fun he hn => absurd (he ▸ hmem0) hn⟩
      rw [if_neg (fun hc => hc.2 (hc.1 ▸ hmem0))]
      rfl
    · subst hout
      refine ⟨?_, ?_, ?_, ?_⟩
      · rw [hconn]
        simp [List.mem_cons, eq_comm, or_comm]
      · intro hne
        simp [Sent.aboutTid, Ne.symm hne]
      · by_cases ht : tid = tid0
        · subst ht
          rw [if_pos ⟨rfl, hmem0⟩]
          simp [Sent.isHandshakeFor]
        · rw [if_neg (fun hc => ht hc.1)]
          simp [Sent.isHandshakeFor, Ne.symm ht]
      · intro he _hn
        subst he
        exact ⟨hb, [], rfl, rfl⟩

/-- Battery bookkeeping of one `handle_tracker_data` step, for an arbitrary
observer id `tid`: either no battery packet for `tid` is emitted and its
timestamp is preserved (or initialised to 0 on a first observation), or
exactly one battery packet is emitted at time `now`, the timestamp is set
to `now`, and the interval guard held. -/
lemma handle_step_battery (br : SlimeVRBridge) (r : Reading) (now : Rat)
    (br1 : SlimeVRBridge) (out : List Sent)
    (h : handle_tracker_data br r now = some (br1, out)) (tid : Nat) :
    (batteryTimes tid out = [] ∧
      (tid ∈ br1.connected_trackers ↔ tid ∈ br.connected_trackers) ∧
      br1.last_battery_time tid = br.last_battery_time tid) ∨
    (batteryTimes tid out = [] ∧ tid ∉ br.connected_trackers ∧
      tid ∈ br1.connected_trackers ∧ br1.last_battery_time tid = 0) ∨
    (batteryTimes tid out = [now] ∧ tid = r.trackerId ∧
      tid ∈ br1.connected_trackers ∧ br1.last_battery_time tid = now ∧
      (tid ∈ br.connected_trackers → br.last_battery_time tid + 5 < now) ∧
      (tid ∉ br.connected_trackers → 5 < now)) := by
  cases r with
  | rotation tid0 q a bat =>
    simp only [Reading.trackerId]
    obtain ⟨hconn, rb, hcase⟩ := handle_rotation_shape br tid0 q a bat now br1 out h
    by_cases ht : tid = tid0
    · subst ht
      rcases hcase with ⟨hmem, hg, hout, hlast⟩ | ⟨hmem, hg, ⟨bb, hout⟩, hlast⟩ |
        ⟨hmem, hg, ⟨hb, hout⟩, hlast⟩ | ⟨hmem, hg, ⟨hb, bb, hout⟩, hlast⟩
      · subst hout
        rw [if_pos hmem] at hconn
        exact Or.inl ⟨by simp [batteryTimes], by rw [hconn], by rw [hlast]⟩
      · subst hout
        rw [if_pos hmem] at hconn
        refine Or.inr (Or.inr ⟨by simp [batteryTimes], rfl, by rw [hconn]; exact hmem,
          by rw [hlast]; simp, fun _ => by linarith, fun hn => absurd hmem hn⟩)
      · subst hout
        rw [if_neg hmem] at hconn
        refine Or.inr (Or.inl ⟨by simp [batteryTimes], hmem,
          by rw [hconn]; exact List.mem_cons_self _ _, by rw [hlast]; simp⟩)
      · subst hout
        rw [if_neg hmem] at hconn
        refine Or.inr (Or.inr ⟨by simp [batteryTimes], rfl,
          by rw [hconn]; exact List.mem_cons_self _ _,
          by rw [hlast]; simp, fun hm => absurd hm hmem, fun _ => by linarith⟩)
    · have hbt : ∀ l : List Sent, (∀ s ∈ l, Sent.aboutTid tid s = false) →
          batteryTimes tid l = [] := by
        intro l hl
        induction l with
        | nil => rfl
        | cons s l2 ih2 =>
          have hs := hl s (List.mem_cons_self _ _)
          have hrec := ih2 fun x hx => hl x (List.mem_cons_of_mem _ hx)
          cases s with
          | battery t tm b =>
            simp only [Sent.aboutTid, decide_eq_false_iff_not] at hs
            simpa [batteryTimes, hs] using hrec
          | handshake t b => simpa [batteryTimes] using hrec
          | rotation t b => simpa [batteryTimes] using hrec
          | heartbeat b => simpa [batteryTimes] using hrec
      have hmemiff : tid ∈ br1.connected_trackers ↔ tid ∈ br.connected_trackers := by
        by_cases hmem : tid0 ∈ br.connected_trackers
        · rw [if_pos hmem] at hconn
          rw [hconn]
        · rw [if_neg hmem] at hconn
          rw [hconn]
          simp [List.mem_cons, ht]
      rcases hcase with ⟨hmem, hg, hout, hlast⟩ | ⟨hmem, hg, ⟨bb, hout⟩, hlast⟩ |
        ⟨hmem, hg, ⟨hb, hout⟩, hlast⟩ | ⟨hmem, hg, ⟨hb, bb, hout⟩, hlast⟩ <;>
        subst hout
      · exact Or.inl ⟨hbt _ (by simp [Sent.aboutTid, Ne.symm ht]), hmemiff,
          by rw [hlast]⟩
      · exact Or.inl ⟨hbt _ (by simp [Sent.aboutTid, Ne.symm ht]), hmemiff,
          by rw [hlast]; simp [ht]⟩
      · exact Or.inl ⟨hbt _ (by simp [Sent.aboutTid, Ne.symm ht]), hmemiff,
          by rw [hlast]; simp [ht]⟩
      · exact Or.inl ⟨hbt _ (by simp [Sent.aboutTid, Ne.symm ht]), hmemiff,
          by rw [hlast]; simp [ht]⟩
  | deviceInfo tid0 =>
    simp only [Reading.trackerId]
    rcases handle_info_shape br tid0 now br1 out _ (Or.inl rfl) h with
      ⟨hmem0, hout, hbr⟩ | ⟨hmem0, ⟨hb, hout⟩, hconn, hlast⟩
    · subst hout
      subst hbr
      exact Or.inl ⟨rfl, Iff.rfl, rfl⟩
    · subst hout
      by_cases ht : tid = tid0
      · subst ht
        exact Or.inr (Or.inl ⟨rfl, hmem0, by rw [hconn]; exact List.mem_cons_self _ _,
          by rw [hlast]; simp⟩)
      · refine Or.inl ⟨rfl, ?_, by rw [hlast]; simp [ht]⟩
        rw [hconn]
        simp [List.mem_cons, ht]
  | status tid0 =>
    simp only [Reading.trackerId]
    rcases handle_info_shape br tid0 now br1 out _ (Or.inr rfl) h with
      ⟨hmem0, hout, hbr⟩ | ⟨hmem0, ⟨hb, hout⟩, hconn, hlast⟩
    · subst hout
      subst hbr
      exact Or.inl ⟨rfl, Iff.rfl, rfl⟩
    · subst hout
      by_cases ht : tid = tid0
      · subst ht
        exact Or.inr (Or.inl ⟨rfl, hmem0, by rw [hconn]; exact List.mem_cons_self _ _,
          by rw [hlast]; simp⟩)
      · refine Or.inl ⟨rfl, ?_, by rw [hlast]; simp [ht]⟩
        rw [hconn]
        simp [List.mem_cons, ht]

/-- Handshake bookkeeping along a completed run: once an id is connected,
no further handshake for it is ever emitted; from a state where the id is
not yet connected, at most one handshake for it is emitted and the first
packet concerning it — if any — is that handshake. -/
lemma runReadings_handshake_inv (tid : Nat) (inputs : List (Reading × Rat)) :
    ∀ (br st' : SlimeVRBridge) (trace : List Sent),
      runReadings br inputs = some (st', trace) →
      (tid ∈ br.connected_trackers →
        trace.countP (Sent.isHandshakeFor tid) = 0) ∧
      (tid ∉ br.connected_trackers →
        trace.countP (Sent.isHandshakeFor tid) ≤ 1 ∧
        ∀ hd rest, trace.filter (Sent.aboutTid tid) = hd :: rest →
          ∃ hb, hd = Sent.handshake tid hb) := by
  induction inputs with
  | nil =>
    intro br st' trace h
    injection h with h1
    injection h1 with hbr htr
    subst htr
    exact ⟨fun _ => rfl, fun _ => ⟨Nat.zero_le 1, fun hd rest hc => by cases hc⟩⟩
  | cons p rest ih =>
    obtain ⟨r, tm⟩ := p
    intro br st' trace h
    simp only [runReadings] at h
    cases hstep : handle_tracker_data br r tm with
    | none => rw [hstep] at h; cases h
    | some p1 =>
      obtain ⟨br1, out⟩ := p1
      rw [hstep] at h
      simp only at h
      cases hrest : runReadings br1 rest with
      | none => rw [hrest] at h; cases h
      | some p2 =>
        obtain ⟨brF, outs⟩ := p2
        rw [hrest] at h
        simp only at h
        injection h with h1
        injection h1 with hbr htr
        subst htr
        obtain ⟨hconn_iff, hfilter_ne, hcount, hfirst⟩ :=
          handle_step_trace br r tm br1 out hstep tid
        constructor
        · intro hmem
          rw [List.countP_append]
          have h1 : out.countP (Sent.isHandshakeFor tid) = 0 := by
            rw [hcount, if_neg]
            rintro ⟨-, hnm⟩
            exact hnm hmem
          have h2 : outs.countP (Sent.isHandshakeFor tid) = 0 :=
            (ih br1 brF outs hrest).1 (hconn_iff.mpr (Or.inl hmem))
          omega
        · intro hnmem
          by_cases ht : tid = r.trackerId
          · obtain ⟨hb, rest2, hout, hrest2count⟩ := hfirst ht hnmem
            have h2 : outs.countP (Sent.isHandshakeFor tid) = 0 :=
              (ih br1 brF outs hrest).1 (hconn_iff.mpr (Or.inr ht))
            constructor
            · rw [List.countP_append]
              have h1 : out.countP (Sent.isHandshakeFor tid) = 1 := by
                rw [hcount, if_pos ⟨ht, hnmem⟩]
              omega
            · intro hd rest3 hfil
              rw [List.filter_append, hout, List.filter_cons,
                if_pos (by simp [Sent.aboutTid]), List.cons_append] at hfil
              injection hfil with hhd htl
              exact ⟨hb, hhd.symm⟩
          · have hfo : out.filter (Sent.aboutTid tid) = [] := hfilter_ne ht
            have hnm1 : tid ∉ br1.connected_trackers := fun hm =>
              (hconn_iff.mp hm).elim hnmem ht
            obtain ⟨ihc, ihf⟩ := (ih br1 brF outs hrest).2 hnm1
            constructor
            · rw [List.countP_append]
              have h1 : out.countP (Sent.isHandshakeFor tid) = 0 := by
                rw [hcount, if_neg]
                rintro ⟨he, -⟩
                exact ht he
              omega
            · intro hd rest3 hfil
              rw [List.filter_append, hfo, List.nil_append] at hfil
              exact ihf hd rest3 hfil

/-- Battery cadence along a completed run: consecutive battery emission
times for an id are always more than 5 seconds apart, and the first one is
constrained by the state's stored timestamp. -/
lemma runReadings_battery_inv (tid : Nat) (inputs : List (Reading × Rat)) :
    ∀ (br st' : SlimeVRBridge) (trace : List Sent),
      runReadings br inputs = some (st', trace) →
      List.Chain' (fun x y => x + 5 < y) (batteryTimes tid trace) ∧
      ∀ t1, (batteryTimes tid trace).head? = some t1 →
        (tid ∈ br.connected_trackers →
          br.last_battery_time tid + 5 < t1) ∧
        (tid ∉ br.connected_trackers → 5 < t1) := by
  induction inputs with
  | nil =>
    intro br st' trace h
    injection h with h1
    injection h1 with hbr htr
    subst htr
    exact ⟨List.chain'_nil, fun t1 hc => by cases hc⟩
  | cons p rest ih =>
    obtain ⟨r, tm⟩ := p
    intro br st' trace h
    simp only [runReadings] at h
    cases hstep : handle_tracker_data br r tm with
    | none => rw [hstep] at h; cases h
    | some p1 =>
      obtain ⟨br1, out⟩ := p1
      rw [hstep] at h
      simp only at h
      cases hrest : runReadings br1 rest with
      | none => rw [hrest] at h; cases h
      | some p2 =>
        obtain ⟨brF, outs⟩ := p2
        rw [hrest] at h
        simp only at h
        injection h with h1
        injection h1 with hbr htr
        subst htr
        obtain ⟨ihchain, ihhead⟩ := ih br1 brF outs hrest
        have happ : batteryTimes tid (out ++ outs) =
            batteryTimes tid out ++ batteryTimes tid outs :=
          List.filterMap_append out outs _
        rcases handle_step_battery br r tm br1 out hstep tid with
          ⟨hbt, hmiff, hlast⟩ | ⟨hbt, hnm, hm1, hlast⟩ |
          ⟨hbt, htid, hm1, hlast, hgmem, hgnew⟩
        · rw [happ, hbt, List.nil_append]
          refine ⟨ihchain, fun t1 hc => ?_⟩
          obtain ⟨ih1, ih2⟩ := ihhead t1 hc
          constructor
          · intro hmem
            rw [← hlast]
            exact ih1 (hmiff.mpr hmem)
          · intro hnmem
            by_cases hm1 : tid ∈ br1.connected_trackers
            · exact absurd (hmiff.mp hm1) hnmem
            · exact ih2 hm1
        · rw [happ, hbt, List.nil_append]
          refine ⟨ihchain, fun t1 hc => ?_⟩
          obtain ⟨ih1, ih2⟩ := ihhead t1 hc
          refine ⟨fun hmem => absurd hmem hnm, fun _ => ?_⟩
          have := ih1 hm1
          rw [hlast] at this
          linarith
        · rw [happ, hbt, List.singleton_append]
          constructor
          · rw [List.chain'_cons']
            refine ⟨fun b hb => ?_, ihchain⟩
            have hb' : (batteryTimes tid outs).head? = some b := hb
            obtain ⟨ih1, -⟩ := ihhead b hb'
            have := ih1 hm1
            rw [hlast] at this
            exact this
          · intro t1 hc
            injection hc with hc1
            subst hc1
            exact ⟨hgmem, hgnew⟩

/-! ## Claim theorems -/

/-- C8: the map from the raw 4-bit battery code to `batteryPct` via
`code * 100 / 15` with integer division is non-decreasing as the code
increases from 0 to 15, with code 0 mapping to 0 and code 15 mapping
to 100. -/
theorem battery_scale_monotone :
    (∀ d, d ≤ 15 → ∀ c, c ≤ d → batteryOfCode c ≤ batteryOfCode d) ∧
    batteryOfCode 0 = 0 ∧ batteryOfCode 15 = 100 :=
  ⟨by decide, by decide, by decide⟩

/-- Witness for `battery_scale_monotone` at codes 2 ≤ 7. -/
theorem battery_scale_monotone_witness :
    (7 : Nat) ≤ 15 ∧ (2 : Nat) ≤ 7 ∧ batteryOfCode 2 ≤ batteryOfCode 7 :=
  ⟨by decide, by decide, battery_scale_monotone.1 7 (by decide) 2 (by decide)⟩

/-- C5 counterexample: when `find_device` succeeds and the device open
inside `run` fails, `run` logs the failure and returns without retrying,
but `main` then returns normally, so the process exits with status 0 — not
with a non-zero status as the claim states. -/
theorem connect_failure_exit_zero_counterexample :
    main_exit_code true false = 0 ∧
    bridge_run false =
      { connect_attempts := 1, error_logged := true, entered_running := false } := by
  exact ⟨rfl, rfl⟩

/-- C5 (amended): a device-open failure aborts the run after a single
connect attempt with the error reported and the running loop never
entered; the process then exits with status 0 (only the earlier
device-enumeration failure in `main` exits non-zero, via `sys.exit(1)`). -/
theorem connect_failure_aborts :
    bridge_run false =
      { connect_attempts := 1, error_logged := true, entered_running := false } ∧
    (bridge_run false).entered_running = false ∧
    main_exit_code true false = 0 ∧
    main_exit_code false true = 1 := by
  exact ⟨rfl, rfl, rfl, rfl⟩

/-- C4 counterexample: at `tracker_id = 0` on a fresh protocol instance
the handshake payload after the 12-byte common header is 46 bytes, not 41
as the claim states (the claim's own field list 4+4+4+12+12+4+6 also sums
to 46). -/
theorem handshake_payload_41_counterexample :
    ((build_handshake initProtocol 0).1.getD []).length = 12 + 46 ∧
    (12 + 46 : Nat) ≠ 12 + 41 := by
  exact ⟨rfl, by decide⟩

/-- C4 (amended): for every `trackerId` below 256 and counter below
`2^64`, `build_handshake` returns a packet whose payload after the 12-byte
common header (4-byte type tag plus 8-byte sequence number) is exactly 46
bytes, ending in a 6-byte MAC-like address whose last byte equals the
`trackerId` and whose first five bytes are the fixed constant
`01 02 03 04 05`. -/
theorem handshake_payload_46 (s : SlimeVRProtocol) (tid : Nat)
    (htid : tid < 256) (hseq : s.packet_id < 2 ^ 64)
    (hmac : s.mac_base = [1, 2, 3, 4, 5, 0]) :
    ∃ pkt s' pre, build_handshake s tid = (some pkt, s') ∧
      pkt.length = 12 + 46 ∧ pkt = pre ++ [1, 2, 3, 4, 5, tid] ∧
      pre.length = 12 + 40 := by
  cases hq : packU64 s.packet_id with
  | none =>
    unfold packU64 at hq
    rw [if_pos hseq] at hq
    cases hq
  | some seqBytes =>
    have hlen8 : seqBytes.length = 8 := by
      unfold packU64 at hq
      rw [if_pos hseq] at hq
      cases hq
      exact packLE_length 8 _
    refine ⟨packU32 PKT_HANDSHAKE ++ seqBytes ++ packU32 100 ++ packU32 3 ++
        packU32 100 ++ packU32 0 ++ packU32 0 ++ packU32 0 ++ packU32 1 ++
        packU32 0 ++ packU32 0 ++ packU32 1 ++ s.mac_base.set 5 tid,
      { s with packet_id := s.packet_id + 1 },
      packU32 PKT_HANDSHAKE ++ seqBytes ++ packU32 100 ++ packU32 3 ++
        packU32 100 ++ packU32 0 ++ packU32 0 ++ packU32 0 ++ packU32 1 ++
        packU32 0 ++ packU32 0 ++ packU32 1, ?_, ?_, ?_, ?_⟩
    · unfold build_handshake
      simp only [hq]
      rw [if_pos htid]
    · simp [packU32, packLE_length, hlen8, hmac]
    · simp [hmac, List.append_assoc]
    · simp [packU32, packLE_length, hlen8]

/-- Witness for `handshake_payload_46` at `tracker_id = 7` on a fresh
protocol instance. -/
theorem handshake_payload_46_witness :
    ∃ pkt s' pre, build_handshake initProtocol 7 = (some pkt, s') ∧
      pkt.length = 12 + 46 ∧ pkt = pre ++ [1, 2, 3, 4, 5, 7] ∧
      pre.length = 12 + 40 :=
  handshake_payload_46 initProtocol 7 (by decide) (by decide) rfl

/-- C6 counterexample: when the shared counter reaches the 64-bit
boundary the next encode call fails (`struct.pack('<Q', ...)` raises,
modelled as `none`) instead of wrapping the counter to 0: Python ints are
unbounded, so the increment at `2^64 - 1` produces `2^64`, not 0, and the
following call's pack is rejected. -/
theorem seq_wrap_counterexample :
    (build_heartbeat { initProtocol with packet_id := 2 ^ 64 }).1 = none ∧
    (build_heartbeat { initProtocol with packet_id := 2 ^ 64 - 1 }).2.packet_id
      = 2 ^ 64 ∧
    (2 ^ 64 : Nat) ≠ 0 := by
  refine ⟨by decide, by decide, by decide⟩

/-- C6 (amended): the sequence counter starts at 0 and every successful
encode call of any message type (handshake, orientation, battery,
heartbeat) advances it by exactly 1; no operation ever resets it; and on
reaching the 64-bit boundary the encode fails (the `<Q` pack raises,
leaving the state unchanged) rather than wrapping to 0. -/
theorem seq_counter_behavior :
    initProtocol.packet_id = 0 ∧
    (∀ s tid pkt s', build_handshake s tid = (some pkt, s') →
      s'.packet_id = s.packet_id + 1) ∧
    (∀ s tid q pkt s', build_rotation s tid q = (some pkt, s') →
      s'.packet_id = s.packet_id + 1) ∧
    (∀ s tid b pkt s', build_battery s tid b = (some pkt, s') →
      s'.packet_id = s.packet_id + 1) ∧
    (∀ s pkt s', build_heartbeat s = (some pkt, s') →
      s'.packet_id = s.packet_id + 1) ∧
    (∀ s : SlimeVRProtocol, 2 ^ 64 ≤ s.packet_id →
      (build_heartbeat s).1 = none ∧ (build_heartbeat s).2 = s) := by
  refine ⟨rfl, ?_, ?_, ?_, ?_, ?_⟩
  · intro s tid pkt s' h
    unfold build_handshake at h
    cases hq : packU64 s.packet_id with
    | none => rw [hq] at h; cases h
    | some sb =>
      rw [hq] at h
      simp only at h
      by_cases htid : tid < 256
      · rw [if_pos htid] at h
        cases h
        rfl
      · rw [if_neg htid] at h
        cases h
  · intro s tid q pkt s' h
    unfold build_rotation at h
    cases hq : packU64 s.packet_id with
    | none => rw [hq] at h; cases h
    | some sb =>
      rw [hq] at h
      simp only at h
      by_cases htid : tid < 256
      · rw [if_pos htid] at h
        cases h
        rfl
      · rw [if_neg htid] at h
        cases h
  · intro s tid b pkt s' h
    unfold build_battery at h
    cases hq : packU64 s.packet_id with
    | none => rw [hq] at h; cases h
    | some sb =>
      rw [hq] at h
      cases h
      rfl
  · intro s pkt s' h
    unfold build_heartbeat at h
    cases hq : packU64 s.packet_id with
    | none => rw [hq] at h; cases h
    | some sb =>
      rw [hq] at h
      cases h
      rfl
  · intro s hs
    have hq : packU64 s.packet_id = none := by
      unfold packU64
      rw [if_neg (by omega)]
    constructor
    · unfold build_heartbeat
      rw [hq]
    · unfold build_heartbeat
      rw [hq]

/-- Witness for `seq_counter_behavior`: one heartbeat on a fresh instance
advances the counter from 0 to 1, and an instance whose counter sits at
`2^64` refuses the encode. -/
theorem seq_counter_behavior_witness :
    (build_heartbeat initProtocol).2.packet_id = initProtocol.packet_id + 1 ∧
    (build_heartbeat { initProtocol with packet_id := 2 ^ 64 }).1 = none := by
  constructor
  · have h : build_heartbeat initProtocol =
        (some [0, 0, 0, 0, 0, 0, 0, 0, 0, 0, 0, 0],
         { packet_id := 1, mac_base := [1, 2, 3, 4, 5, 0] }) := rfl
    rw [h]
    exact seq_counter_behavior.2.2.2.2.1 initProtocol _ _ h
  · exact (seq_counter_behavior.2.2.2.2.2 { initProtocol with packet_id := 2 ^ 64 }
      (by decide)).1

/-- C1: evaluation of the unsynchronized counter discipline at the failing
schedule.  Two concurrent builder calls (poll path and heartbeat path)
both reach the `struct.pack('<Q', self.packet_id)` read before either has
executed the store half of `self.packet_id += 1`: both packets are stamped
with sequence number 0 (a duplicate), sequence number 1 is never stamped
(a gap), and the counter still ends at 2.  The contrasting non-interleaved
schedule stamps 0 then 1 as the claim expects. -/
theorem seq_counter_race_duplicate :
    (runSched [true, false, true, true, false, false] 0 initCall initCall).2.1.stamped
      = some 0 ∧
    (runSched [true, false, true, true, false, false] 0 initCall initCall).2.2.stamped
      = some 0 ∧
    (runSched [true, false, true, true, false, false] 0 initCall initCall).2.1.pc = 3 ∧
    (runSched [true, false, true, true, false, false] 0 initCall initCall).2.2.pc = 3 ∧
    (runSched [true, false, true, true, false, false] 0 initCall initCall).1 = 2 ∧
    (runSched [true, true, true, false, false, false] 0 initCall initCall).2.1.stamped
      = some 0 ∧
    (runSched [true, true, true, false, false, false] 0 initCall initCall).2.2.stamped
      = some 1 := by
  decide

/-- C3: decode returns `none` when the input is shorter than 12 bytes and
when the kind selector (bits 7:6 of byte 0) equals the reserved value 3;
for every input of length at least 12 decode never raises — it is a total
function returning `none` exactly when the kind selector is reserved and a
typed reading otherwise. -/
theorem parse_fail_soft (data : List Nat) :
    (data.length < 12 → parse_rf_ultra_packet data = none) ∧
    ((data.getD 0 0 >>> 6) &&& 3 = 3 → parse_rf_ultra_packet data = none) ∧
    (12 ≤ data.length →
      ((parse_rf_ultra_packet data).isSome ↔ (data.getD 0 0 >>> 6) &&& 3 ≠ 3)) := by
  refine ⟨fun h => by simp [parse_rf_ultra_packet, h], ?_, ?_⟩
  · intro hk
    by_cases hlen : data.length < 12
    · simp [parse_rf_ultra_packet, hlen]
    · simp only [parse_rf_ultra_packet, if_neg hlen]
      rw [if_neg (by simp only [hk]; decide), if_neg (by simp only [hk]; decide),
        if_neg (by simp only [hk]; decide)]
  · intro hlen
    have hnl : ¬ data.length < 12 := by omega
    have hle : (data.getD 0 0 >>> 6) &&& 3 ≤ 3 := Nat.and_le_right
    simp only [parse_rf_ultra_packet, if_neg hnl]
    by_cases h0 : (data.getD 0 0 >>> 6) &&& 3 = 0
    · rw [if_pos h0]
      exact ⟨fun _ => by rw [h0]; decide, fun _ => rfl⟩
    · rw [if_neg h0]
      by_cases h1 : (data.getD 0 0 >>> 6) &&& 3 = 1
      · rw [if_pos h1]
        exact ⟨fun _ => by rw [h1]; decide, fun _ => rfl⟩
      · rw [if_neg h1]
        by_cases h2 : (data.getD 0 0 >>> 6) &&& 3 = 2
        · rw [if_pos h2]
          exact ⟨fun _ => by rw [h2]; decide, fun _ => rfl⟩
        · rw [if_neg h2]
          have h3 : (data.getD 0 0 >>> 6) &&& 3 = 3 := by omega
          exact ⟨fun h => absurd h (by decide), fun hne => absurd h3 hne⟩

/-- Witness for `parse_fail_soft`: an 8-byte frame decodes to `none`, a
12-byte frame with reserved kind selector (byte 0 = `0xC0`) decodes to
`none`, and a 12-byte all-zero frame decodes to a reading. -/
theorem parse_fail_soft_witness :
    parse_rf_ultra_packet [0, 0, 0, 0, 0, 0, 0, 0] = none ∧
    parse_rf_ultra_packet [192, 0, 0, 0, 0, 0, 0, 0, 0, 0, 0, 0] = none ∧
    (parse_rf_ultra_packet [0, 0, 0, 0, 0, 0, 0, 0, 0, 0, 0, 0]).isSome := by
  refine ⟨(parse_fail_soft _).1 (by decide),
    (parse_fail_soft _).2.1 (by decide),
    ((parse_fail_soft [0, 0, 0, 0, 0, 0, 0, 0, 0, 0, 0, 0]).2.2
      (by decide)).mpr (by decide)⟩

/-- C7: for every frame of at least 12 byte values that decodes to an
Orientation reading, composing the returned `trackerId` (low 6 bits) and
kind code (top 2 bits, 0 for Orientation) back into a header byte
reconstructs the frame's original byte 0 exactly. -/
theorem orientation_header_roundtrip (data : List Nat) (tid : Nat)
    (q : List Rat) (a : Rat) (b : Nat)
    (hbytes : ∀ x ∈ data, x < 256)
    (hp : parse_rf_ultra_packet data = some (Reading.rotation tid q a b)) :
    (Reading.rotation tid q a b).kindCode <<< 6 ||| tid = data.getD 0 0 := by
  by_cases hlen : data.length < 12
  · simp [parse_rf_ultra_packet, hlen] at hp
  · have hb0 : data.getD 0 0 < 256 := by
      have hpos : 0 < data.length := by omega
      rw [List.getD_eq_getElem data 0 hpos]
      exact hbytes _ (List.getElem_mem hpos)
    simp only [parse_rf_ultra_packet, if_neg hlen] at hp
    by_cases h0 : (data.getD 0 0 >>> 6) &&& 3 = 0
    · rw [if_pos h0] at hp
      simp only [Option.some.injEq, Reading.rotation.injEq] at hp
      obtain ⟨htid, -, -, -⟩ := hp
      have hkc : (Reading.rotation tid q a b).kindCode = 0 := rfl
      rw [hkc, ← htid]
      exact header_byte_recompose _ hb0 h0
    · rw [if_neg h0] at hp
      by_cases h1 : (data.getD 0 0 >>> 6) &&& 3 = 1
      · rw [if_pos h1] at hp
        simp at hp
      · rw [if_neg h1] at hp
        by_cases h2 : (data.getD 0 0 >>> 6) &&& 3 = 2
        · rw [if_pos h2] at hp
          simp at hp
        · rw [if_neg h2] at hp
          cases hp

/-- Witness for `orientation_header_roundtrip` on the frame
`05 FF 7F 00 00 00 00 00 00 00 00 00` (trackerId 5, kind Orientation). -/
theorem orientation_header_roundtrip_witness :
    ∃ tid q a b,
      parse_rf_ultra_packet [5, 255, 127, 0, 0, 0, 0, 0, 0, 0, 0, 0] =
        some (Reading.rotation tid q a b) ∧
      (Reading.rotation tid q a b).kindCode <<< 6 ||| tid =
        [5, 255, 127, 0, 0, 0, 0, 0, 0, 0, 0, 0].getD 0 0 := by
  have hs : (parse_rf_ultra_packet [5, 255, 127, 0, 0, 0, 0, 0, 0, 0, 0, 0]).isSome
      = true := rfl
  cases hp : parse_rf_ultra_packet [5, 255, 127, 0, 0, 0, 0, 0, 0, 0, 0, 0] with
  | none =>
    rw [hp] at hs
    cases hs
  | some r =>
    cases r with
    | rotation tid q a b =>
      exact ⟨tid, q, a, b, rfl,
        orientation_header_roundtrip _ _ _ _ _ (by decide) hp⟩
    | deviceInfo t =>
      have h := (parse_kindCode _ _ hp).1
      rw [show (Reading.deviceInfo t).kindCode = 1 from rfl] at h
      exact absurd h (by decide)
    | status t =>
      have h := (parse_kindCode _ _ hp).1
      rw [show (Reading.status t).kindCode = 2 from rfl] at h
      exact absurd h (by decide)

/-- C2: starting from a fresh bridge, over any completed sequence of
handled readings, each trackerId receives at most one handshake over the
whole trace, and the first emitted packet concerning that id — if any — is
its handshake; so the handshake precedes every orientation/battery packet
for that id and no later observation re-triggers one. -/
theorem handshake_first_and_once (inputs : List (Reading × Rat))
    (st' : SlimeVRBridge) (trace : List Sent)
    (h : runReadings initBridge inputs = some (st', trace)) (tid : Nat) :
    trace.countP (Sent.isHandshakeFor tid) ≤ 1 ∧
    ∀ hd rest, trace.filter (Sent.aboutTid tid) = hd :: rest →
      ∃ hb, hd = Sent.handshake tid hb :=
  (runReadings_handshake_inv tid inputs initBridge st' trace h).2
    (List.not_mem_nil tid)

/-- Witness for `handshake_first_and_once`: two DeviceInfo readings for
tracker 3 in a row. -/
theorem handshake_first_and_once_witness :
    ∃ st' trace,
      runReadings initBridge
        [(Reading.deviceInfo 3, 0), (Reading.deviceInfo 3, 1)] =
        some (st', trace) ∧
      trace.countP (Sent.isHandshakeFor 3) ≤ 1 ∧
      ∀ hd rest, trace.filter (Sent.aboutTid 3) = hd :: rest →
        ∃ hb, hd = Sent.handshake 3 hb := by
  have hs : (runReadings initBridge
      [(Reading.deviceInfo 3, 0), (Reading.deviceInfo 3, 1)]).isSome = true := rfl
  cases hr : runReadings initBridge
      [(Reading.deviceInfo 3, 0), (Reading.deviceInfo 3, 1)] with
  | none => rw [hr] at hs; cases hs
  | some p =>
    exact ⟨p.1, p.2, rfl,
      handshake_first_and_once _ p.1 p.2 (by rw [hr]) 3⟩

/-- C9: a battery packet is emitted by a handling step only at the step's
own time, only for the reading's tracker, only when `now` minus the stored
last battery time (0 for a first observation) exceeds 5, and the send time
is recorded; consequently, along any completed run from a fresh bridge,
consecutive battery emission times for one tracker are always more than 5
seconds apart — at most one battery packet per 5-second interval. -/
theorem battery_rate_limited :
    (∀ br r now br1 out,
      handle_tracker_data br r now = some (br1, out) →
      ∀ tid tm bb, Sent.battery tid tm bb ∈ out →
        tm = now ∧ tid = r.trackerId ∧ br1.last_battery_time tid = now ∧
        now - (if tid ∈ br.connected_trackers then br.last_battery_time tid
          else 0) > 5) ∧
    (∀ inputs st' trace,
      runReadings initBridge inputs = some (st', trace) →
      ∀ tid, List.Chain' (fun x y => x + 5 < y) (batteryTimes tid trace)) := by
  constructor
  · intro br r now br1 out h tid tm bb hmem
    have htm : tm ∈ batteryTimes tid out := by
      simp only [batteryTimes, List.mem_filterMap]
      exact ⟨_, hmem, by simp⟩
    rcases handle_step_battery br r now br1 out h tid with
      ⟨hbt, -, -⟩ | ⟨hbt, -, -, -⟩ | ⟨hbt, htid, -, hlast, hgmem, hgnew⟩
    · rw [hbt] at htm; cases htm
    · rw [hbt] at htm; cases htm
    · rw [hbt] at htm
      have htmeq : tm = now := by simpa using htm
      subst htmeq
      refine ⟨rfl, htid, hlast, ?_⟩
      by_cases hmem2 : tid ∈ br.connected_trackers
      · rw [if_pos hmem2]
        linarith [hgmem hmem2]
      · rw [if_neg hmem2]
        linarith [hgnew hmem2]
  · intro inputs st' trace h tid
    exact (runReadings_battery_inv tid inputs initBridge st' trace h).1

/-- Witness for `battery_rate_limited`: a first Orientation reading for
tracker 5 at time 10 emits handshake, rotation and one battery stamped
with time 10; and a completed one-reading run instantiates the cadence
chain. -/
theorem battery_rate_limited_witness :
    ∃ br1 out,
      handle_tracker_data initBridge (Reading.rotation 5 [] 0 40) 10 =
        some (br1, out) ∧
      (∀ tm bb, Sent.battery 5 tm bb ∈ out → tm = 10) ∧
      ∃ st' trace,
        runReadings initBridge [(Reading.deviceInfo 3, 0)] =
          some (st', trace) ∧
        List.Chain' (fun x y => x + 5 < y) (batteryTimes 3 trace) := by
  have heval : handle_tracker_data initBridge (Reading.rotation 5 [] 0 40) 10 =
      some ({ protocol := { packet_id := 3, mac_base := [1, 2, 3, 4, 5, 0] },
              connected_trackers := [5],
              last_battery_time := fun t => if t = 5 then 10 else 0 },
        [Sent.handshake 5 [3, 0, 0, 0, 0, 0, 0, 0, 0, 0, 0, 0, 100, 0, 0, 0,
           3, 0, 0, 0, 100, 0, 0, 0, 0, 0, 0, 0, 0, 0, 0, 0, 0, 0, 0, 0,
           1, 0, 0, 0, 0, 0, 0, 0, 0, 0, 0, 0, 1, 0, 0, 0, 1, 2, 3, 4, 5, 5],
         Sent.rotation 5 [17, 0, 0, 0, 1, 0, 0, 0, 0, 0, 0, 0, 5, 1, 1],
         Sent.battery 5 10 [12, 0, 0, 0, 2, 0, 0, 0, 0, 0, 0, 0,
           0, 0, 0, 0, 0, 0, 0, 0]]) := by
    simp [handle_tracker_data, Reading.trackerId, initBridge, initProtocol,
      build_handshake, build_rotation, build_battery, packU64, packU32, packLE,
      packF32, PKT_HANDSHAKE, PKT_ROTATION_DATA, PKT_BATTERY]
    norm_num
  refine ⟨_, _, heval, ?_, ?_⟩
  · intro tm bb hmem
    exact (battery_rate_limited.1 initBridge _ 10 _ _ heval 5 tm bb hmem).1
  · have hs : (runReadings initBridge [(Reading.deviceInfo 3, 0)]).isSome
        = true := rfl
    cases hr : runReadings initBridge [(Reading.deviceInfo 3, 0)] with
    | none => rw [hr] at hs; cases hs
    | some p =>
      exact ⟨p.1, p.2, rfl, battery_rate_limited.2 _ p.1 p.2 (by rw [hr]) 3⟩

/-- C10: handling a decoded DeviceInfo or Status reading sends exactly one
packet — a handshake — when its trackerId has not been seen before, and no
packet at all when it was already seen; in particular such readings never
produce orientation or battery packets. -/
theorem info_status_handshake_only (br : SlimeVRBridge) (tid : Nat)
    (now : Rat) (br' : SlimeVRBridge) (out : List Sent) (r : Reading)
    (hr : r = Reading.deviceInfo tid ∨ r = Reading.status tid)
    (h : handle_tracker_data br r now = some (br', out)) :
    (tid ∉ br.connected_trackers → ∃ hb, out = [Sent.handshake tid hb]) ∧
    (tid ∈ br.connected_trackers → out = []) := by
  rcases handle_info_shape br tid now br' out r hr h with
    ⟨hmem, hout, -⟩ | ⟨hmem, hout, -, -⟩
  · exact ⟨fun hn => absurd hmem hn, fun _ => hout⟩
  · exact ⟨fun _ => hout, fun hm => absurd hm hmem⟩

/-- Witness for `info_status_handshake_only`: a first DeviceInfo reading
for tracker 3 on a fresh bridge yields exactly one handshake packet. -/
theorem info_status_handshake_only_witness :
    3 ∉ initBridge.connected_trackers ∧
    ∃ br' out,
      handle_tracker_data initBridge (Reading.deviceInfo 3) 0 =
        some (br', out) ∧
      ∃ hb, out = [Sent.handshake 3 hb] := by
  refine ⟨List.not_mem_nil 3, ?_⟩
  have hs : (handle_tracker_data initBridge (Reading.deviceInfo 3) 0).isSome
      = true := rfl
  cases hp : handle_tracker_data initBridge (Reading.deviceInfo 3) 0 with
  | none => rw [hp] at hs; cases hs
  | some p =>
    refine ⟨p.1, p.2, rfl, ?_⟩
    exact (info_status_handshake_only initBridge 3 0 p.1 p.2
      (Reading.deviceInfo 3) (Or.inl rfl) (by rw [hp])).1 (List.not_mem_nil 3)

end SlimeVRBridgeModel
